/-
Verification of the task-tracking store (`src/task_manager.py`) against its
natural-language specification.

The embedding is shallow: each Python function of the core module is
translated into a Lean definition over explicit state.  Machine-level
nondeterminism is made explicit as parameters:
  * `id(self)` (CPython's memory address of a fresh object) becomes an
    explicit `selfId : Int` argument;
  * `datetime.now().strftime(...)` becomes an explicit `now : String`
    argument.
Field values are modelled at the types the program actually stores for
records it creates itself (ints, strings, booleans); the load path, whose
claims concern arbitrary malformed input, is modelled separately over raw
JSON values.
-/
import Mathlib

namespace TaskManagerModel

/-- A task record, mirroring the seven attributes assigned in
`Task.__init__` (src/task_manager.py lines 15-23). -/
structure Task where
  id : Int
  title : String
  description : String
  priority : String
  due_date : String
  completed : Bool
  created_at : String
deriving DecidableEq, Repr

/-- `Task.__init__(title, description, priority, due_date, task_id)`:
`id` is `task_id` when supplied and not `None`, otherwise the fresh object
identity `selfId` (Python's `id(self)`); `completed` starts `False`;
`created_at` is the current time `now`. -/
def Task.init (title description priority due_date : String)
    (task_id : Option Int) (selfId : Int) (now : String) : Task :=
  { id := task_id.getD selfId
    title := title
    description := description
    priority := priority
    due_date := due_date
    completed := false
    created_at := now }

/-- The dictionary form of a record used by JSON persistence: a
field-name-to-value mapping in which any field may be absent.  `to_dict`
produces one with every field present; `from_dict` tolerates absence. -/
structure TaskDict where
  id : Option Int
  title : Option String
  description : Option String
  priority : Option String
  due_date : Option String
  completed : Option Bool
  created_at : Option String
deriving DecidableEq, Repr

/-- `Task.to_dict` (lines 25-35): every field is serialized. -/
def Task.to_dict (t : Task) : TaskDict :=
  { id := some t.id
    title := some t.title
    description := some t.description
    priority := some t.priority
    due_date := some t.due_date
    completed := some t.completed
    created_at := some t.created_at }

/-- `Task.from_dict` (lines 37-49): `data['title']` raises `KeyError` when
absent (modelled as `none`); the other fields go through `data.get` with
defaults; `completed` and `created_at` are overwritten after construction. -/
def Task.from_dict (d : TaskDict) (now : String) (selfId : Int) : Option Task :=
  match d.title with
  | none => none
  | some ttl =>
    let t := Task.init ttl (d.description.getD "") (d.priority.getD "Medium")
      (d.due_date.getD "") d.id selfId now
    some { t with completed := d.completed.getD false
                  created_at := d.created_at.getD now }

/-- A value that can appear on the right of a `field=value` pair handed to
`update_task(**kwargs)`, at the types the record's data attributes hold. -/
inductive FieldVal where
  | int (i : Int)
  | str (s : String)
  | bool (b : Bool)
deriving DecidableEq, Repr

/-- `hasattr(task, key)` restricted to the record's data attributes (the
seven assigned in `__init__`).  Python's `hasattr` is additionally true for
class-level attributes (methods and dunders); rebinding those through
`update_task` shadows code rather than record data and is outside this
model. -/
def hasAttr (key : String) : Bool :=
  key = "id" || key = "title" || key = "description" || key = "priority" ||
  key = "due_date" || key = "completed" || key = "created_at"

/-- `setattr(task, key, value)` for the record's data attributes. -/
def setAttr (t : Task) (key : String) (v : FieldVal) : Task :=
  if key = "id" then match v with | .int i => { t with id := i } | _ => t
  else if key = "title" then match v with | .str s => { t with title := s } | _ => t
  else if key = "description" then match v with | .str s => { t with description := s } | _ => t
  else if key = "priority" then match v with | .str s => { t with priority := s } | _ => t
  else if key = "due_date" then match v with | .str s => { t with due_date := s } | _ => t
  else if key = "completed" then match v with | .bool b => { t with completed := b } | _ => t
  else if key = "created_at" then match v with | .str s => { t with created_at := s } | _ => t
  else t

/-- The loop of `update_task` (lines 85-87): for each supplied pair, apply
it when the key names an attribute, skip it otherwise. -/
def applyKwargs (t : Task) : List (String × FieldVal) → Task
  | [] => t
  | (key, v) :: rest =>
    applyKwargs (if hasAttr key then setAttr t key v else t) rest

/-- The manager's state: the in-memory list (`self.tasks`, insertion
order) and the serialized content of the backing file, which `save_tasks`
overwrites in full after every mutation. -/
structure Store where
  tasks : List Task
  fileData : List TaskDict
deriving DecidableEq, Repr

/-- `TaskManager.save_tasks` (lines 135-139): dump `to_dict` of every task. -/
def save_tasks (tasks : List Task) : List TaskDict :=
  tasks.map Task.to_dict

/-- `TaskManager.get_task` (lines 72-77): first record whose `id` matches. -/
def get_task (tasks : List Task) (task_id : Int) : Option Task :=
  tasks.find? (fun t => t.id == task_id)

/-- `TaskManager.add_task` (lines 64-70): construct with no explicit id
(so `id(self)` is used), append, save, return the new record. -/
def add_task (s : Store) (title description priority due_date : String)
    (selfId : Int) (now : String) : Store × Task :=
  let task := Task.init title description priority due_date none selfId now
  let ts := s.tasks ++ [task]
  ({ tasks := ts, fileData := save_tasks ts }, task)

/-- In-place mutation of the object `get_task` returned: rewrite the first
record whose id matches, leave the rest untouched. -/
def updateFirst (task_id : Int) (f : Task → Task) : List Task → List Task
  | [] => []
  | t :: rest =>
    if t.id == task_id then f t :: rest
    else t :: updateFirst task_id f rest

/-- `TaskManager.update_task` (lines 79-90): `False` when no record
matches; otherwise apply every supplied pair to the matched record,
save, return `True`. -/
def update_task (s : Store) (task_id : Int) (kwargs : List (String × FieldVal)) :
    Store × Bool :=
  match get_task s.tasks task_id with
  | none => (s, false)
  | some _ =>
    let ts := updateFirst task_id (fun t => applyKwargs t kwargs) s.tasks
    ({ tasks := ts, fileData := save_tasks ts }, true)

/-- `self.tasks.remove(task)` where `task` is the object `get_task`
returned: removes the first record whose id matches. -/
def removeFirst (task_id : Int) : List Task → List Task
  | [] => []
  | t :: rest => if t.id == task_id then rest else t :: removeFirst task_id rest

/-- `TaskManager.delete_task` (lines 92-99). -/
def delete_task (s : Store) (task_id : Int) : Store × Bool :=
  match get_task s.tasks task_id with
  | none => (s, false)
  | some _ =>
    let ts := removeFirst task_id s.tasks
    ({ tasks := ts, fileData := save_tasks ts }, true)

/-- `TaskManager.complete_task` / `uncomplete_task` (lines 101-117):
set the matched record's `completed` flag, save, report existence. -/
def set_completed (s : Store) (task_id : Int) (value : Bool) : Store × Bool :=
  match get_task s.tasks task_id with
  | none => (s, false)
  | some _ =>
    let ts := updateFirst task_id (fun t => { t with completed := value }) s.tasks
    ({ tasks := ts, fileData := save_tasks ts }, true)

/-- `TaskManager.complete_task` (lines 101-108). -/
def complete_task (s : Store) (task_id : Int) : Store × Bool :=
  set_completed s task_id true

/-- `TaskManager.uncomplete_task` (lines 110-117). -/
def uncomplete_task (s : Store) (task_id : Int) : Store × Bool :=
  set_completed s task_id false

/-- Python's `str.lower()`: lower-case each character. -/
def pyLower (s : String) : String :=
  String.mk (s.data.map Char.toLower)

/-- Python's substring test `needle in hay`. -/
def strContains (hay needle : String) : Bool :=
  decide (needle.data <:+: hay.data)

/-- `TaskManager.search_tasks` (lines 129-133): lower-case the query, keep
the records whose lower-cased title or description contains it. -/
def search_tasks (tasks : List Task) (query : String) : List Task :=
  let q := pyLower query
  tasks.filter (fun t => strContains (pyLower t.title) q ||
    strContains (pyLower t.description) q)

/-- The summary `get_statistics` returns (lines 153-170). -/
structure Stats where
  total : Nat
  completed : Nat
  pending : Nat
  high : Nat
  medium : Nat
  low : Nat
deriving DecidableEq, Repr

/-- `TaskManager.get_statistics` (lines 153-170): `pending` is computed as
`total - completed`; each priority bucket counts only non-completed
records with exactly that priority string. -/
def get_statistics (tasks : List Task) : Stats :=
  let total := tasks.length
  let completed := tasks.countP (fun t => t.completed)
  let pending := total - completed
  { total := total
    completed := completed
    pending := pending
    high := tasks.countP (fun t => t.priority == "High" && !t.completed)
    medium := tasks.countP (fun t => t.priority == "Medium" && !t.completed)
    low := tasks.countP (fun t => t.priority == "Low" && !t.completed) }

/-! ### The load path over raw JSON values

`TaskManager.load_tasks` (lines 141-151) reads arbitrary file content, so
it is modelled over a JSON value type.  The file content is
`Option (Option Json)`: `none` when the path does not exist, `some none`
when the file exists but `json.load` raises `JSONDecodeError`, and
`some (some j)` when it parses to the value `j`. -/

/-- A parsed JSON value, as `json.load` produces it. -/
inductive Json where
  | null
  | bool (b : Bool)
  | num (n : Int)
  | str (s : String)
  | arr (elems : List Json)
  | obj (fields : List (String × Json))

/-- A record as `Task.from_dict` builds it from raw JSON: every attribute
holds whatever value the file supplied. -/
structure TaskJ where
  id : Json
  title : Json
  description : Json
  priority : Json
  due_date : Json
  completed : Json
  created_at : Json

/-- The exceptions the load path can raise: `KeyError` from
`data['title']` on a dict missing the key, `TypeError` from subscripting
or iterating a value of the wrong shape.  (`JSONDecodeError` is modelled
by `some none` file content.) -/
inductive PyErr where
  | keyError
  | typeError
deriving DecidableEq, Repr

/-- Python dict lookup on the parsed object's key/value pairs
(`json.load` yields dicts, so keys are unique). -/
def jLookup (fields : List (String × Json)) (key : String) : Option Json :=
  fields.lookup key

/-- `Task.from_dict(data)` on a raw JSON element.  `data['title']` raises
`TypeError` unless `data` is a dict, and `KeyError` when the dict lacks
the key; `data.get(k, default)` substitutes the default when the key is
absent; `data.get('id')` yields `None` when `id` is absent or `null`, in
which case `id(self)` (= `selfId`) is used. -/
def fromDictJson (data : Json) (now : String) (selfId : Int) :
    Except PyErr TaskJ :=
  match data with
  | .obj fields =>
    match jLookup fields "title" with
    | none => .error .keyError
    | some ttl =>
      let task_id : Option Json :=
        match jLookup fields "id" with
        | none => none
        | some Json.null => none
        | some v => some v
      .ok { id := task_id.getD (.num selfId)
            title := ttl
            description := (jLookup fields "description").getD (.str "")
            priority := (jLookup fields "priority").getD (.str "Medium")
            due_date := (jLookup fields "due_date").getD (.str "")
            completed := (jLookup fields "completed").getD (.bool false)
            created_at := (jLookup fields "created_at").getD (.str now) }
  | _ => .error .typeError

/-- Python iteration `for task_data in data`: arrays yield their elements,
dicts their keys, strings their characters; other values raise
`TypeError`. -/
def pyIter (j : Json) : Except PyErr (List Json) :=
  match j with
  | .arr elems => .ok elems
  | .obj fields => .ok (fields.map (fun p => Json.str p.1))
  | .str s => .ok (s.data.map (fun c => Json.str (String.mk [c])))
  | _ => .error .typeError

/-- The list comprehension `[Task.from_dict(d) for d in data]`, where each
fresh object gets its own identity (`selfIds i` for the i-th element). -/
def loadItems (items : List Json) (now : String) (selfIds : Nat → Int)
    (i : Nat) : Except PyErr (List TaskJ) :=
  match items with
  | [] => .ok []
  | item :: rest =>
    match fromDictJson item now (selfIds i) with
    | .error e => .error e
    | .ok t =>
      match loadItems rest now selfIds (i + 1) with
      | .error e => .error e
      | .ok ts => .ok (t :: ts)

/-- `TaskManager.load_tasks` (lines 141-151): empty when the path does not
exist; the `except` clause catches only `json.JSONDecodeError` and
`KeyError` and resets to empty; any other exception (notably `TypeError`
from content of the wrong shape) propagates to the caller. -/
def load_tasks (file : Option (Option Json)) (now : String)
    (selfIds : Nat → Int) : Except PyErr (List TaskJ) :=
  match file with
  | none => .ok []
  | some none => .ok []
  | some (some j) =>
    match pyIter j with
    | .error e => .error e
    | .ok items =>
      match loadItems items now selfIds 0 with
      | .error .keyError => .ok []
      | .error .typeError => .error .typeError
      | .ok ts => .ok ts

/-! ### Helper lemmas -/

theorem from_dict_to_dict (t : Task) (now : String) (selfId : Int) :
    Task.from_dict (Task.to_dict t) now selfId = some t := by
  cases t
  rfl

theorem applyKwargs_append (t : Task) (k₁ k₂ : List (String × FieldVal)) :
    applyKwargs t (k₁ ++ k₂) = applyKwargs (applyKwargs t k₁) k₂ := by
  induction k₁ generalizing t with
  | nil => rfl
  | cons p rest ih =>
    cases p
    simp only [List.cons_append, applyKwargs]
    exact ih _

theorem setAttr_id_of_ne (t : Task) (key : String) (v : FieldVal)
    (h : ¬ key = "id") : (setAttr t key v).id = t.id := by
  unfold setAttr
  split_ifs <;> (cases v <;> rfl)

theorem applyKwargs_id_of_no_id (t : Task) (k : List (String × FieldVal))
    (h : ∀ p ∈ k, ¬ p.1 = "id") : (applyKwargs t k).id = t.id := by
  induction k generalizing t with
  | nil => rfl
  | cons p rest ih =>
    obtain ⟨key, v⟩ := p
    have hk : ¬ key = "id" := h (key, v) (List.mem_cons_self _ _)
    have h' : ∀ q ∈ rest, ¬ q.1 = "id" :=
      fun q hq => h q (List.mem_cons_of_mem _ hq)
    simp only [applyKwargs]
    rw [ih _ h']
    split
    · exact setAttr_id_of_ne t key v hk
    · rfl

theorem updateFirst_map_id (task_id : Int) (f : Task → Task) (l : List Task)
    (hf : ∀ t, (f t).id = t.id) :
    (updateFirst task_id f l).map Task.id = l.map Task.id := by
  induction l with
  | nil => rfl
  | cons t rest ih =>
    simp only [updateFirst]
    split
    · simp [hf]
    · simp [ih]

theorem updateFirst_decomp (task_id : Int) (f : Task → Task)
    (l₁ l₂ : List Task) (t : Task)
    (h1 : ∀ x ∈ l₁, ¬ (x.id == task_id) = true)
    (h2 : (t.id == task_id) = true) :
    updateFirst task_id f (l₁ ++ t :: l₂) = l₁ ++ f t :: l₂ := by
  induction l₁ with
  | nil => simp [updateFirst, h2]
  | cons a rest ih =>
    have ha := h1 a (List.mem_cons_self _ _)
    simp only [List.cons_append, updateFirst]
    rw [if_neg (by simpa using ha)]
    exact congrArg (fun l => a :: l)
      (ih (fun x hx => h1 x (List.mem_cons_of_mem _ hx)))

theorem removeFirst_sublist (task_id : Int) (l : List Task) :
    List.Sublist (removeFirst task_id l) l := by
  induction l with
  | nil => exact List.Sublist.refl _
  | cons t rest ih =>
    simp only [removeFirst]
    split
    · exact List.sublist_cons_self t rest
    · exact ih.cons₂ t

theorem countP_bool_split {α : Type} (p : α → Bool) (l : List α) :
    l.countP p + l.countP (fun a => !p a) = l.length := by
  induction l with
  | nil => rfl
  | cons a rest ih =>
    by_cases hp : p a = true <;>
      simp [List.countP_cons, hp] <;> omega

theorem countP_or_of_disjoint {α : Type} (f g : α → Bool) (l : List α)
    (h : ∀ a ∈ l, ¬ (f a = true ∧ g a = true)) :
    l.countP (fun a => f a || g a) = l.countP f + l.countP g := by
  induction l with
  | nil => rfl
  | cons a rest ih =>
    have h1 := h a (List.mem_cons_self _ _)
    have ih' := ih (fun x hx => h x (List.mem_cons_of_mem _ hx))
    by_cases hf : f a = true
    · by_cases hg : g a = true
      · exact absurd ⟨hf, hg⟩ h1
      · simp only [List.countP_cons, ih', hf, hg]
        simp [hf, hg]
        omega
    · by_cases hg : g a = true
      · simp only [List.countP_cons, ih', hf, hg]
        simp [hf, hg]
        omega
      · simp only [List.countP_cons, ih', hf, hg]
        simp [hf, hg]

/-! ### Claims -/

/-- C3: serializing every record to its dictionary form (`to_dict`, as
`save_tasks` does) and then deserializing each dictionary (`from_dict`, as
`load_tasks` does) yields a collection equal field-for-field to the
original, in the same order. -/
theorem claim_C3_round_trip (tasks : List Task) (now : String) (selfId : Int) :
    (tasks.map Task.to_dict).mapM (fun d => Task.from_dict d now selfId) =
      some tasks := by
  induction tasks with
  | nil => rfl
  | cons t rest ih =>
    rw [List.map_cons, List.mapM_cons, from_dict_to_dict, ih]
    rfl

/-- C5: for an id matching no record, `update_task`, `delete_task`,
`complete_task` and `uncomplete_task` return `false` and leave both the
in-memory collection and the persisted file data unchanged, and `get_task`
reports not-found. -/
theorem claim_C5_missing_id_noop (s : Store) (task_id : Int)
    (kwargs : List (String × FieldVal))
    (h : ∀ t ∈ s.tasks, t.id ≠ task_id) :
    get_task s.tasks task_id = none ∧
    update_task s task_id kwargs = (s, false) ∧
    delete_task s task_id = (s, false) ∧
    complete_task s task_id = (s, false) ∧
    uncomplete_task s task_id = (s, false) := by
  have hg : get_task s.tasks task_id = none := by
    rw [get_task, List.find?_eq_none]
    intro t ht
    simpa using h t ht
  refine ⟨hg, ?_, ?_, ?_, ?_⟩ <;>
    simp [update_task, delete_task, complete_task, uncomplete_task,
      set_completed, hg]

/-- C6: `get_statistics` returns the total record count, the completed and
pending counts, and per-priority counts restricted to non-completed
records; a non-completed record with a priority outside
High/Medium/Low is counted in no bucket (the three buckets together count
exactly the non-completed records whose priority is one of the three). -/
theorem claim_C6_statistics (tasks : List Task) :
    (get_statistics tasks).total = tasks.length ∧
    (get_statistics tasks).completed = tasks.countP (fun t => t.completed) ∧
    (get_statistics tasks).pending = tasks.countP (fun t => !t.completed) ∧
    (get_statistics tasks).high =
      (tasks.filter (fun t => !t.completed)).countP (fun t => t.priority == "High") ∧
    (get_statistics tasks).medium =
      (tasks.filter (fun t => !t.completed)).countP (fun t => t.priority == "Medium") ∧
    (get_statistics tasks).low =
      (tasks.filter (fun t => !t.completed)).countP (fun t => t.priority == "Low") ∧
    (get_statistics tasks).high + (get_statistics tasks).medium +
        (get_statistics tasks).low =
      (tasks.filter (fun t => !t.completed)).countP
        (fun t => t.priority == "High" || (t.priority == "Medium" ||
          t.priority == "Low")) := by
  refine ⟨rfl, rfl, ?_, ?_, ?_, ?_, ?_⟩
  · have h := countP_bool_split (fun t : Task => t.completed) tasks
    simp only [get_statistics]
    omega
  · rw [List.countP_filter]
    rfl
  · rw [List.countP_filter]
    rfl
  · rw [List.countP_filter]
    rfl
  · have hd2 : ∀ a ∈ tasks.filter (fun t => !t.completed),
        ¬ (((fun t : Task => t.priority == "High") a = true) ∧
          ((fun t : Task => t.priority == "Medium" || t.priority == "Low") a
            = true)) := by
      rintro a _ ⟨h1, h2⟩
      rw [beq_iff_eq] at h1
      rcases Bool.or_eq_true_iff.mp h2 with h3 | h3 <;>
        (rw [beq_iff_eq] at h3; rw [h1] at h3; exact absurd h3 (by decide))
    have hd1 : ∀ a ∈ tasks.filter (fun t => !t.completed),
        ¬ (((fun t : Task => t.priority == "Medium") a = true) ∧
          ((fun t : Task => t.priority == "Low") a = true)) := by
      rintro a _ ⟨h1, h2⟩
      rw [beq_iff_eq] at h1
      rw [beq_iff_eq] at h2
      rw [h1] at h2
      exact absurd h2 (by decide)
    rw [countP_or_of_disjoint _ _ _ hd2, countP_or_of_disjoint _ _ _ hd1,
      List.countP_filter, List.countP_filter, List.countP_filter,
      Nat.add_assoc]
    rfl

/-- C7: `search_tasks` returns exactly the records, in insertion order,
whose lower-cased title or description contains the lower-cased query as a
contiguous substring; the empty query returns every record. -/
theorem claim_C7_search (tasks : List Task) (query : String) :
    search_tasks tasks query = tasks.filter (fun t =>
      decide ((pyLower query).data <:+: (pyLower t.title).data ∨
        (pyLower query).data <:+: (pyLower t.description).data)) ∧
    search_tasks tasks "" = tasks := by
  constructor
  · simp only [search_tasks]
    exact List.filter_congr (fun t _ => by simp [strContains])
  · simp only [search_tasks]
    rw [List.filter_eq_self]
    intro t _
    have h0 : pyLower "" = "" := rfl
    simp [strContains, h0, List.nil_infix]

/-- C8: `from_dict` on a dictionary that has a `title` field defaults every
absent field (`description` to `""`, `priority` to `"Medium"`, `due_date`
to `""`, `completed` to `false`, `created_at` to the current time) and
takes a present `id` verbatim. -/
theorem claim_C8_defaults (d : TaskDict) (now : String) (selfId : Int)
    (ttl : String) (h : d.title = some ttl) :
    Task.from_dict d now selfId = some
      { id := d.id.getD selfId
        title := ttl
        description := d.description.getD ""
        priority := d.priority.getD "Medium"
        due_date := d.due_date.getD ""
        completed := d.completed.getD false
        created_at := d.created_at.getD now } := by
  simp [Task.from_dict, h, Task.init]

/-- C9: `add_task` appends the new record at the end with the requested
title, description, priority and due date, `completed = false` and
`created_at` set at creation; when the generated id is fresh (as CPython's
`id(self)` is among live records it has itself created), an immediately
following `get_task` with the returned record's id yields that record. -/
theorem claim_C9_add_then_get (s : Store)
    (title description priority due_date : String) (selfId : Int)
    (now : String) (h : ∀ t ∈ s.tasks, t.id ≠ selfId) :
    (add_task s title description priority due_date selfId now).2 =
      { id := selfId, title := title, description := description
        priority := priority, due_date := due_date
        completed := false, created_at := now } ∧
    (add_task s title description priority due_date selfId now).1.tasks =
      s.tasks ++ [(add_task s title description priority due_date selfId now).2] ∧
    get_task (add_task s title description priority due_date selfId now).1.tasks
        (add_task s title description priority due_date selfId now).2.id =
      some (add_task s title description priority due_date selfId now).2 := by
  refine ⟨rfl, rfl, ?_⟩
  have h1 : s.tasks.find? (fun t => t.id == selfId) = none :=
    List.find?_eq_none.mpr (fun x hx => by simpa using h x hx)
  simp only [add_task, get_task, Task.init, Option.getD]
  rw [List.find?_append, h1]
  simp

/-- C10: `update_task` silently ignores a supplied key that names no
attribute of the record (the update is the same as without that entry),
while keys naming attributes are applied; it still persists the collection
and returns `true`.  This is the code's deterministic resolution of the
spec's reject-or-ignore choice. -/
theorem claim_C10_unknown_key_ignored (s : Store) (task_id : Int)
    (key : String) (v : FieldVal) (kwargs : List (String × FieldVal))
    (t : Task) (hfound : get_task s.tasks task_id = some t)
    (hkey : hasAttr key = false) :
    update_task s task_id ((key, v) :: kwargs) = update_task s task_id kwargs ∧
    (update_task s task_id kwargs).2 = true ∧
    (update_task s task_id kwargs).1.fileData =
      save_tasks (update_task s task_id kwargs).1.tasks ∧
    ∀ (ttl desc pri due : String),
      applyKwargs t [("title", FieldVal.str ttl),
        ("description", FieldVal.str desc), ("priority", FieldVal.str pri),
        ("due_date", FieldVal.str due)] =
      { t with title := ttl, description := desc, priority := pri,
               due_date := due } := by
  refine ⟨?_, ?_, ?_, ?_⟩
  · simp [update_task, hfound, applyKwargs, hkey]
  · simp [update_task, hfound]
  · simp [update_task, hfound]
  · intro ttl desc pri due
    rfl

/-- C1 counterexample: on a store holding the single task with id 1 and
`created_at = "c"`, an update supplying the keys `id` and `created_at`
does change precisely those fields — `hasattr` is true for them, so the
reflective loop assigns them like any other attribute.  The claim that
they are left unchanged is therefore false. -/
theorem claim_C1_counterexample :
    ((update_task
        ⟨[{ id := 1, title := "a", description := "", priority := "Medium",
            due_date := "", completed := false, created_at := "c" }], []⟩ 1
        [("id", FieldVal.int 9), ("created_at", FieldVal.str "x")]).1.tasks.map
      Task.id = [9]) ∧
    ((update_task
        ⟨[{ id := 1, title := "a", description := "", priority := "Medium",
            due_date := "", completed := false, created_at := "c" }], []⟩ 1
        [("id", FieldVal.int 9), ("created_at", FieldVal.str "x")]).1.tasks.map
      Task.created_at = ["x"]) := by
  constructor <;> rfl

/-- C1 amended: for every store, existing task id and supplied mapping,
`update_task` succeeds and rewrites exactly the first matching record by
applying every entry whose key names an attribute — including entries for
`id` and `created_at`, which therefore are mutable through this operation
(appending such entries forces those fields to the supplied values);
they stay unchanged only when the mapping carries no entry for them. -/
theorem claim_C1_amended (s : Store) (task_id : Int)
    (kwargs : List (String × FieldVal)) (t : Task)
    (h : get_task s.tasks task_id = some t) :
    (update_task s task_id kwargs).2 = true ∧
    (∃ l₁ l₂, s.tasks = l₁ ++ t :: l₂ ∧ (∀ x ∈ l₁, x.id ≠ task_id) ∧
      (update_task s task_id kwargs).1.tasks =
        l₁ ++ applyKwargs t kwargs :: l₂) ∧
    (∀ (i : Int) (c : String),
      (applyKwargs t (kwargs ++ [("id", FieldVal.int i),
        ("created_at", FieldVal.str c)])).id = i ∧
      (applyKwargs t (kwargs ++ [("id", FieldVal.int i),
        ("created_at", FieldVal.str c)])).created_at = c) := by
  have hfind := h
  rw [get_task, List.find?_eq_some] at hfind
  obtain ⟨hp, l₁, l₂, hdec, hprev⟩ := hfind
  refine ⟨by simp [update_task, h], ⟨l₁, l₂, hdec, ?_, ?_⟩, ?_⟩
  · intro x hx
    have := hprev x hx
    simpa using this
  · simp only [update_task, h]
    rw [hdec]
    exact updateFirst_decomp task_id _ l₁ l₂ t
      (fun x hx => by simpa using hprev x hx) hp
  · intro i c
    rw [applyKwargs_append]
    exact ⟨rfl, rfl⟩

/-- C2 counterexample: starting from an empty store, add two tasks with
distinct fresh ids 1 and 2, then update task 2 supplying the key `id` with
value 1: the resulting ids are `[1, 1]`, not pairwise distinct.  The
claimed invariant fails for sequences whose updates touch `id`. -/
theorem claim_C2_counterexample :
    ¬ (((update_task
          (add_task (add_task ⟨[], []⟩ "a" "" "Medium" "" 1 "T").1
            "b" "" "Medium" "" 2 "T").1 2
          [("id", FieldVal.int 1)]).1.tasks.map Task.id).Nodup) := by
  have h : ((update_task
      (add_task (add_task ⟨[], []⟩ "a" "" "Medium" "" 1 "T").1
        "b" "" "Medium" "" 2 "T").1 2
      [("id", FieldVal.int 1)]).1.tasks.map Task.id) = [1, 1] := rfl
  rw [h]
  decide

/-- C2 amended: distinctness of the ids held in memory is preserved by
every operation, provided each `add_task` is given a fresh id (one no
current record carries — the property CPython's `id(self)` guarantees only
among records the store itself created, not against ids loaded verbatim
from a file) and no `update_task` mapping carries the key `id`;
`delete_task` preserves it unconditionally. -/
theorem claim_C2_amended (s : Store) (hs : (s.tasks.map Task.id).Nodup) :
    (∀ title description priority due_date selfId now,
      (∀ t ∈ s.tasks, t.id ≠ selfId) →
      (((add_task s title description priority due_date selfId
          now).1.tasks.map Task.id).Nodup)) ∧
    (∀ task_id kwargs, (∀ p ∈ kwargs, p.1 ≠ "id") →
      (((update_task s task_id kwargs).1.tasks.map Task.id).Nodup)) ∧
    (∀ task_id, (((delete_task s task_id).1.tasks.map Task.id).Nodup)) := by
  refine ⟨?_, ?_, ?_⟩
  · intro title description priority due_date selfId now h
    simp only [add_task, Task.init, List.map_append, List.map_cons,
      List.map_nil, Option.getD]
    rw [List.nodup_append]
    refine ⟨hs, List.nodup_singleton _, ?_⟩
    intro a ha hb
    simp only [List.mem_singleton] at hb
    subst hb
    obtain ⟨t, ht, hid⟩ := List.mem_map.mp ha
    exact h t ht hid
  · intro task_id kwargs hk
    cases hfind : get_task s.tasks task_id with
    | none => simpa [update_task, hfind] using hs
    | some t =>
      simp only [update_task, hfind]
      rw [updateFirst_map_id _ _ _
        (fun t' => applyKwargs_id_of_no_id t' kwargs hk)]
      exact hs
  · intro task_id
    cases hfind : get_task s.tasks task_id with
    | none => simpa [delete_task, hfind] using hs
    | some t =>
      simp only [delete_task, hfind]
      exact hs.sublist ((removeFirst_sublist task_id s.tasks).map Task.id)

theorem loadItems_objs_keyError (objs : List (List (String × Json)))
    (now : String) (selfIds : Nat → Int) (i : Nat)
    (h : ∃ f ∈ objs, jLookup f "title" = none) :
    loadItems (objs.map Json.obj) now selfIds i = .error .keyError := by
  induction objs generalizing i with
  | nil => simp at h
  | cons fs rest ih =>
    simp only [List.map_cons, loadItems]
    cases hto : jLookup fs "title" with
    | none => simp [fromDictJson, hto]
    | some v =>
      have hex : ∃ f ∈ rest, jLookup f "title" = none := by
        obtain ⟨f, hf, hn⟩ := h
        rcases List.mem_cons.mp hf with rfl | hf'
        · rw [hn] at hto
          cases hto
        · exact ⟨f, hf', hn⟩
      simp [fromDictJson, hto, ih _ hex]

/-- C4 counterexample: the file content `5` is valid JSON but is not the
expected serialized format (a list of records); the claim says
initialization must then yield an empty collection and never raise, but
`load_tasks` only catches `JSONDecodeError` and `KeyError`, so iterating
the integer raises an uncaught `TypeError` that propagates to the
caller. -/
theorem claim_C4_counterexample :
    load_tasks (some (some (Json.num 5))) "T" (fun _ => 0) =
      .error .typeError := rfl

/-- C4 amended: initialization yields an empty collection without raising
when the path does not exist, when the file content is not parseable as
JSON (`JSONDecodeError` is caught), and when it parses to an array of
objects one of which lacks the `title` field (`KeyError` is caught); but
content that parses to JSON of any other shape (a non-array, or an array
with a non-object element) raises an uncaught `TypeError`. -/
theorem claim_C4_amended (now : String) (selfIds : Nat → Int)
    (objs : List (List (String × Json)))
    (h : ∃ f ∈ objs, jLookup f "title" = none) :
    load_tasks none now selfIds = .ok [] ∧
    load_tasks (some none) now selfIds = .ok [] ∧
    load_tasks (some (some (Json.arr (objs.map Json.obj)))) now selfIds =
      .ok [] := by
  refine ⟨rfl, rfl, ?_⟩
  simp [load_tasks, pyIter, loadItems_objs_keyError objs now selfIds 0 h]

/-! ### Witnesses: the hypotheses of the claims above are satisfiable at
concrete inputs, and the definitions evaluate there. -/


/-- A sample record with id 1, used by the witnesses below. -/
def sampleTask1 : Task :=
  { id := 1, title := "a", description := "", priority := "Medium",
    due_date := "", completed := false, created_at := "c" }

/-- A sample record with id 2, used by the witnesses below. -/
def sampleTask2 : Task :=
  { id := 2, title := "b", description := "", priority := "Low",
    due_date := "", completed := false, created_at := "c" }

/-- A sample one-record store holding `sampleTask1`. -/
def sampleStore1 : Store := { tasks := [sampleTask1], fileData := [] }

/-- A sample one-record store holding `sampleTask2`. -/
def sampleStore2 : Store := { tasks := [sampleTask2], fileData := [] }

theorem claim_C5_witness :
    update_task sampleStore2 1 [] = (sampleStore2, false) ∧
    get_task sampleStore2.tasks 1 = none :=
  ⟨(claim_C5_missing_id_noop sampleStore2 1 [] (by decide)).2.1,
   (claim_C5_missing_id_noop sampleStore2 1 [] (by decide)).1⟩

theorem claim_C8_witness :
    Task.from_dict ⟨none, some "x", none, none, none, none, none⟩ "T" 7 =
      some { id := 7, title := "x", description := "", priority := "Medium",
             due_date := "", completed := false, created_at := "T" } :=
  claim_C8_defaults ⟨none, some "x", none, none, none, none, none⟩ "T" 7 "x"
    rfl

theorem claim_C9_witness :
    (add_task ⟨[], []⟩ "a" "b" "High" "d" 3 "T").2 =
      { id := 3, title := "a", description := "b", priority := "High",
        due_date := "d", completed := false, created_at := "T" } :=
  (claim_C9_add_then_get ⟨[], []⟩ "a" "b" "High" "d" 3 "T"
    (by intro t ht; simp at ht)).1

theorem claim_C10_witness :
    update_task sampleStore1 1 [("junk", FieldVal.int 0)] =
      update_task sampleStore1 1 [] :=
  (claim_C10_unknown_key_ignored sampleStore1 1 "junk" (FieldVal.int 0) []
    sampleTask1 rfl rfl).1

theorem claim_C1_amended_witness :
    (update_task sampleStore1 1 [("id", FieldVal.int 9)]).2 = true :=
  (claim_C1_amended sampleStore1 1 [("id", FieldVal.int 9)] sampleTask1
    rfl).1

theorem claim_C2_amended_witness :
    ((add_task sampleStore1 "b" "" "Low" "" 5 "T").1.tasks.map
      Task.id).Nodup :=
  (claim_C2_amended sampleStore1 (by decide)).1 "b" "" "Low" "" 5 "T"
    (by decide)

theorem claim_C4_amended_witness :
    load_tasks (some (some (Json.arr [Json.obj [("x", Json.null)]]))) "T"
      (fun _ => 0) = .ok [] :=
  (claim_C4_amended "T" (fun _ => 0) [[("x", Json.null)]]
    ⟨[("x", Json.null)], List.mem_singleton.mpr rfl, rfl⟩).2.2

end TaskManagerModel
